import Mathlib

/-!
Shallow embedding of the trajectory classification and aggregation engine of
src/CalderaEndpointAnalysisV2.py.

Conventions of the embedding:
- pandas DataFrames become lists of structure values; a groupby over the key
  columns becomes, for each key, the sublist of rows carrying that key in the
  original row order (pandas preserves the within-group row order).
- float columns (pos_x, pos_y, pos_z and the derived averages) are modelled
  as rationals; time_step and life are integers.
- pandas idxmin and idxmax return the label of the first row attaining the
  extremum within the group; firstMinBy and firstMaxBy below implement
  exactly that selection.
- numpy astype(int) truncates toward zero; ratTrunc below implements it.
- shapely raises ValueError when a Polygon is built from a nonempty ring of
  fewer than 3 vertices; point containment is the standard even-odd
  ray-casting test. Fallible steps return Except String.
- the name-to-letter display columns (POI, Name) of the summary tables and
  the ordering of summary rows are presentation details carrying no data
  beyond the group key, and are not modelled.
-/

namespace Caldera

/-- A 2-D map coordinate pair (x, y). -/
abbrev Vec2 : Type := ℚ × ℚ

/-- One telemetry row of the breadcrumbs table: columns match_id, player_id,
time_step, pos_x, pos_y, pos_z, life. -/
structure Sample where
  match_id : Int
  player_id : Int
  time_step : Int
  pos_x : ℚ
  pos_y : ℚ
  pos_z : ℚ
  life : Int
deriving DecidableEq

/-- The per-player grouping key: unique_id = [match_id, player_id] (line 129). -/
abbrev PlayerKey : Type := Int × Int

/-- The key columns of one row. -/
def playerKey (s : Sample) : PlayerKey := (s.match_id, s.player_id)

/-- One parsed POI entry as built at lines 87-91: name, letter and polygon. -/
structure POI where
  name : String
  letter : String
  polygon : List Vec2
deriving DecidableEq

/-- One row of the boundaries table after the coordinate cells have been
parsed by parse_coords_from_row (lines 73-81, out of scope here): the Name
column, the Shape column, and the list of parsed (x, y) vertices. -/
structure BoundaryRow where
  name : String
  letter : String
  coords : List Vec2
deriving DecidableEq

/-- Models the shapely Polygon constructor called at line 90: a nonempty
ring of fewer than 3 vertices raises ValueError; Polygon([]) would build an
empty polygon without raising, but the guard at line 86 keeps the empty list
away from the constructor; otherwise the vertex list is kept as given. -/
def mkPolygon (coords : List Vec2) : Except String (List Vec2) :=
  if coords ≠ [] ∧ coords.length < 3 then
    .error "ValueError: A LinearRing must have at least 3 coordinate tuples"
  else .ok coords

/-- parse_poi_polygons (lines 83-92): walks the boundary rows in order,
skips rows whose parsed coordinate list is empty (the `if coords:` guard),
and builds a Polygon from every nonempty coordinate list. An exception from
the Polygon constructor propagates and aborts the whole run. -/
def parse_poi_polygons : List BoundaryRow → Except String (List POI)
  | [] => .ok []
  | row :: rest =>
    if row.coords = [] then parse_poi_polygons rest
    else
      match mkPolygon row.coords with
      | .error e => .error e
      | .ok poly =>
        match parse_poi_polygons rest with
        | .error e => .error e
        | .ok pois => .ok (⟨row.name, row.letter, poly⟩ :: pois)

/-- Models the shapely containment test polygon.contains(point) used at
line 111, as the even-odd ray-casting rule on the ordered vertex list; a
ring of fewer than 3 vertices contains no point. The claims only ever apply
it to points strictly inside or strictly outside a polygon, where the
even-odd rule and shapely interior containment agree. -/
def polyContains (poly : List Vec2) (x y : ℚ) : Bool :=
  if poly.length < 3 then false
  else
    (poly.zip (poly.rotate 1)).foldl
      (fun inside ab =>
        if ((decide (y < ab.1.2)) != (decide (y < ab.2.2)))
            && decide (x < (ab.2.1 - ab.1.1) * (y - ab.1.2) / (ab.2.2 - ab.1.2) + ab.1.1)
        then !inside else inside)
      false

/-- classify_point (lines 97-113): returns the name of the first POI in list
order whose polygon contains the point, and the sentinel Other when no
polygon contains it. -/
def classify_point (x y : ℚ) (poi_polygons : List POI) : String :=
  match poi_polygons.find? (fun poi => polyContains poi.polygon x y) with
  | some poi => poi.name
  | none => "Other"

/-- active_df (line 130): the rows with life >= 0. -/
def activeRows (df : List Sample) : List Sample :=
  df.filter (fun s => decide (0 ≤ s.life))

/-- The rows of one groupby group: the rows carrying key k, in row order. -/
def groupRows (df : List Sample) (k : PlayerKey) : List Sample :=
  df.filter (fun s => decide (playerKey s = k))

/-- The distinct group keys present in the table. -/
def keysOf (df : List Sample) : List PlayerKey :=
  (df.map playerKey).dedup

/-- Selection underlying pandas idxmin within one group: the first element
of the list attaining the minimum of f, none on the empty list. -/
def firstMinBy {α β : Type} [LinearOrder β] (f : α → β) : List α → Option α
  | [] => none
  | a :: l =>
    match firstMinBy f l with
    | none => some a
    | some b => if f a ≤ f b then some a else some b

/-- Selection underlying pandas idxmax within one group: the first element
of the list attaining the maximum of f, none on the empty list. -/
def firstMaxBy {α β : Type} [LinearOrder β] (f : α → β) : List α → Option α
  | [] => none
  | a :: l =>
    match firstMaxBy f l with
    | none => some a
    | some b => if f b ≤ f a then some a else some b

/-- Minimum value of a list, none on the empty list (pandas Series.min). -/
def listMin? {β : Type} [LinearOrder β] (l : List β) : Option β :=
  firstMinBy id l

/-- Maximum value of a list, none on the empty list (pandas Series.max). -/
def listMax? {β : Type} [LinearOrder β] (l : List β) : Option β :=
  firstMaxBy id l

/-- start_time of one player (line 132): groupby transform min of time_step
over the active rows of that player. -/
def start_time? (df : List Sample) (k : PlayerKey) : Option Int :=
  listMin? ((activeRows (groupRows df k)).map (fun s => s.time_step))

/-- landing_window_df restricted to one player (line 133): the active rows
with time_step <= start_time + 45. -/
def landingWindow (df : List Sample) (k : PlayerKey) : List Sample :=
  match start_time? df k with
  | none => []
  | some st => (activeRows (groupRows df k)).filter (fun s => decide (s.time_step ≤ st + 45))

/-- landing_df restricted to one player (line 134): the row selected by
idxmin of pos_z within the landing window. -/
def landingRow (df : List Sample) (k : PlayerKey) : Option Sample :=
  firstMinBy (fun s => s.pos_z) (landingWindow df k)

/-- death_df restricted to one player (line 136): the row selected by idxmax
of life over the FULL, unfiltered group of that player. -/
def deathRow (df : List Sample) (k : PlayerKey) : Option Sample :=
  firstMaxBy (fun s => s.life) (groupRows df k)

/-- survival_time of one player (line 137): max time_step over the active
rows of that player. -/
def survival_time? (df : List Sample) (k : PlayerKey) : Option Int :=
  listMax? ((activeRows (groupRows df k)).map (fun s => s.time_step))

/-- One row of analysis_df (lines 139-140): the merge of the landing
coordinates with survival_time on unique_id, plus the landing_poi column
produced by classify_point. -/
structure AnalysisRow where
  key : PlayerKey
  pos_x : ℚ
  pos_y : ℚ
  survival_time : Int
  landing_poi : String
deriving DecidableEq

/-- analysis_df (lines 139-140): one row per player key that has both a
landing row and a survival time (exactly the keys with an active sample). -/
def analysisRows (df : List Sample) (pois : List POI) : List AnalysisRow :=
  (keysOf df).filterMap (fun k =>
    match landingRow df k, survival_time? df k with
    | some l, some st =>
        some ⟨k, l.pos_x, l.pos_y, st, classify_point l.pos_x l.pos_y pois⟩
    | some _, none => none
    | none, _ => none)

/-- One row of death_df after line 141: the selected death sample of one
player with its death_poi classification. -/
structure DeathRow where
  key : PlayerKey
  pos_x : ℚ
  pos_y : ℚ
  death_poi : String
deriving DecidableEq

/-- death_df (lines 136 and 141): one row per group key of the full table,
carrying the idxmax-of-life sample and its classification. -/
def deathRows (df : List Sample) (pois : List POI) : List DeathRow :=
  (keysOf df).filterMap (fun k =>
    (deathRow df k).map (fun d => ⟨k, d.pos_x, d.pos_y, classify_point d.pos_x d.pos_y pois⟩))

/-- Arithmetic mean of survival_time over a group of analysis rows
(grouped mean, line 157). -/
def avg_survival (rows : List AnalysisRow) : ℚ :=
  (rows.map (fun r => (r.survival_time : ℚ))).sum / (rows.length : ℚ)

/-- groupby landing_poi (line 154): each distinct landing_poi value paired
with its rows. The order of the groups models nothing (pandas sorts group
keys; the summary tables are unordered by design). -/
def landingGroups (rows : List AnalysisRow) : List (String × List AnalysisRow) :=
  ((rows.map (fun r => r.landing_poi)).dedup).map
    (fun n => (n, rows.filter (fun r => decide (r.landing_poi = n))))

/-- The groups kept by line 158: the Other bucket is removed. -/
def keptGroups (rows : List AnalysisRow) : List (String × List AnalysisRow) :=
  (landingGroups rows).filter (fun g => decide (g.1 ≠ "Other"))

/-- The avg_survival_time column of the kept groups (lines 157-161). -/
def avgsOf (rows : List AnalysisRow) : List ℚ :=
  (keptGroups rows).map (fun g => avg_survival g.2)

/-- One row of the landing summary table (lines 156-165). -/
structure LandingSummaryRow where
  name : String
  player_count : Nat
  avg_survival_time : ℚ
  survival_score : Int
deriving DecidableEq

/-- Truncation toward zero of a rational, the conversion numpy astype(int)
performs on a float column. -/
def ratTrunc (q : ℚ) : Int :=
  if 0 ≤ q then ⌊q⌋ else ⌈q⌉

/-- summarize_landing_data (lines 146-169): groups by landing_poi, drops the
Other bucket, and derives survival_score by min-max normalisation cast with
astype(int). When max_time - min_time > 0 fails to hold (all averages equal,
or no kept group at all so that min and max are NaN and the comparison is
False), the conditional expression at lines 162-165 evaluates to the plain
Python int 100 and the .astype(int) call on it raises AttributeError; that
crash is modelled as the error result. -/
def summarize_landing_data (rows : List AnalysisRow) : Except String (List LandingSummaryRow) :=
  match listMin? (avgsOf rows), listMax? (avgsOf rows) with
  | some min_time, some max_time =>
    if 0 < max_time - min_time then
      .ok ((keptGroups rows).map (fun g =>
        ⟨g.1, g.2.length, avg_survival g.2,
          ratTrunc ((avg_survival g.2 - min_time) / (max_time - min_time) * 100)⟩))
    else .error "AttributeError: int object has no attribute astype"
  | some _, none => .error "AttributeError: int object has no attribute astype"
  | none, _ => .error "AttributeError: int object has no attribute astype"

/-- One row of the death summary table (lines 171-183). -/
structure DeathSummaryRow where
  name : String
  death_count : Nat
deriving DecidableEq

/-- summarize_death_data (lines 171-183): groups death_df by death_poi,
counts each group, and drops the Other bucket. -/
def summarize_death_data (drows : List DeathRow) : List DeathSummaryRow :=
  (((drows.map (fun r => r.death_poi)).dedup).filter (fun n => decide (n ≠ "Other"))).map
    (fun n => ⟨n, (drows.filter (fun r => decide (r.death_poi = n))).length⟩)

/-! Concrete fixtures used by the closed theorems below. -/

/-- A square region covering [0,2] x [0,2]. -/
def sqA : List Vec2 := [(0, 0), (2, 0), (2, 2), (0, 2)]

/-- A square region covering [1,3] x [1,3]; it overlaps sqA. -/
def sqB : List Vec2 := [(1, 1), (3, 1), (3, 3), (1, 3)]

/-- A POI named Alpha over sqA. -/
def poiA : POI := ⟨"Alpha", "A", sqA⟩

/-- A POI named Bravo over sqB, defined after Alpha. -/
def poiB : POI := ⟨"Bravo", "B", sqB⟩

/-- An analysis table whose single kept region gives all regions the same
average survival time. -/
def rowsEq : List AnalysisRow := [⟨(1, 1), 100, 100, 500, "Alpha"⟩]

/-- An analysis table with three regions of average survival times 0, 2, 3. -/
def rowsTri : List AnalysisRow :=
  [⟨(1, 1), 0, 0, 0, "A1"⟩, ⟨(1, 2), 0, 0, 2, "B1"⟩, ⟨(1, 3), 0, 0, 3, "C1"⟩]

/-- The landing summary the code produces on rowsTri. -/
def outTri : List LandingSummaryRow :=
  [⟨"A1", 1, 0, 0⟩, ⟨"B1", 1, 2, 66⟩, ⟨"C1", 1, 3, 100⟩]

/-- A boundary row whose parsed coordinate list is empty. -/
def emptyRow : BoundaryRow := ⟨"Empty", "E", []⟩

/-- A boundary row with exactly one parsed vertex. -/
def oneVertexRow : BoundaryRow := ⟨"Degenerate", "D", [(0, 0)]⟩

/-- A boundary row with exactly two parsed vertices. -/
def twoVertexRow : BoundaryRow := ⟨"Segment", "S", [(0, 0), (1, 0)]⟩

/-- A boundary row carrying the full Alpha square. -/
def goodRow : BoundaryRow := ⟨"Alpha", "A", sqA⟩

/-- A breadcrumbs table with a single player whose only sample has life -1,
recorded at position (1, 1) inside the Alpha square. -/
def dfDead : List Sample := [⟨1, 1, 0, 1, 1, 0, -1⟩]

/-- A breadcrumbs table with one player and three active samples: spawn at
time 10 and altitude 50, touchdown at time 20 and altitude 2, and a late
sample at time 500 and altitude 9 outside the 45-step landing window. -/
def dfA : List Sample :=
  [⟨1, 1, 10, 100, 100, 50, 5⟩, ⟨1, 1, 20, 100, 100, 2, 5⟩, ⟨1, 1, 500, 100, 100, 9, 5⟩]

/-- A breadcrumbs table with one player and two active samples that tie both
on pos_z and on life. -/
def dfTie : List Sample := [⟨1, 1, 0, 0, 0, 5, 3⟩, ⟨1, 1, 1, 7, 7, 5, 3⟩]

/-- The first sample of dfTie. -/
def tieFirst : Sample := ⟨1, 1, 0, 0, 0, 5, 3⟩

/-- A death table with a single unclassified death. -/
def drowsOther : List DeathRow := [⟨(1, 1), 5000, 5000, "Other"⟩]

/-! Helper lemmas about the first-extremum selections underlying pandas
idxmin and idxmax. -/

/-- firstMinBy returns none exactly on the empty list. -/
theorem firstMinBy_eq_none {α β : Type} [LinearOrder β] (f : α → β) (l : List α) :
    firstMinBy f l = none ↔ l = [] := by
  cases l with
  | nil => simp [firstMinBy]
  | cons a t =>
    simp only [firstMinBy]
    cases h : firstMinBy f t with
    | none => simp
    | some b => by_cases hc : f a ≤ f b <;> simp [hc]

/-- firstMaxBy returns none exactly on the empty list. -/
theorem firstMaxBy_eq_none {α β : Type} [LinearOrder β] (f : α → β) (l : List α) :
    firstMaxBy f l = none ↔ l = [] := by
  cases l with
  | nil => simp [firstMaxBy]
  | cons a t =>
    simp only [firstMaxBy]
    cases h : firstMaxBy f t with
    | none => simp
    | some b => by_cases hc : f b ≤ f a <;> simp [hc]

/-- firstMinBy selects an element attaining the minimum of f such that every
element placed before it in the list is strictly larger. -/
theorem firstMinBy_spec {α β : Type} [LinearOrder β] (f : α → β) :
    ∀ (l : List α) (b : α), firstMinBy f l = some b →
      ∃ pre suf, l = pre ++ b :: suf ∧ (∀ a ∈ pre, f b < f a) ∧ ∀ a ∈ l, f b ≤ f a := by
  intro l
  induction l with
  | nil => intro b h; simp [firstMinBy] at h
  | cons a t ih =>
    intro b h
    simp only [firstMinBy] at h
    cases ht : firstMinBy f t with
    | none =>
      rw [ht] at h
      have hae : a = b := by simpa using h
      subst hae
      have htnil : t = [] := (firstMinBy_eq_none f t).mp ht
      subst htnil
      exact ⟨[], [], rfl, by simp, by simp⟩
    | some c =>
      rw [ht] at h
      have h2 : (if f a ≤ f c then some a else some c) = some b := h
      obtain ⟨pre, suf, heq, hpre, hall⟩ := ih c ht
      by_cases hle : f a ≤ f c
      · rw [if_pos hle] at h2
        have hae : a = b := by simpa using h2
        subst hae
        refine ⟨[], t, rfl, by simp, ?_⟩
        intro x hx
        rcases List.mem_cons.mp hx with hx | hx
        · exact le_of_eq (congrArg f hx.symm)
        · exact le_trans hle (hall x hx)
      · rw [if_neg hle] at h2
        have hce : c = b := by simpa using h2
        subst hce
        refine ⟨a :: pre, suf, by rw [heq, List.cons_append], ?_, ?_⟩
        · intro x hx
          rcases List.mem_cons.mp hx with hx | hx
          · rw [hx]; exact not_le.mp hle
          · exact hpre x hx
        · intro x hx
          rcases List.mem_cons.mp hx with hx | hx
          · rw [hx]; exact le_of_lt (not_le.mp hle)
          · exact hall x hx

/-- firstMaxBy selects an element attaining the maximum of f such that every
element placed before it in the list is strictly smaller. -/
theorem firstMaxBy_spec {α β : Type} [LinearOrder β] (f : α → β) :
    ∀ (l : List α) (b : α), firstMaxBy f l = some b →
      ∃ pre suf, l = pre ++ b :: suf ∧ (∀ a ∈ pre, f a < f b) ∧ ∀ a ∈ l, f a ≤ f b := by
  intro l
  induction l with
  | nil => intro b h; simp [firstMaxBy] at h
  | cons a t ih =>
    intro b h
    simp only [firstMaxBy] at h
    cases ht : firstMaxBy f t with
    | none =>
      rw [ht] at h
      have hae : a = b := by simpa using h
      subst hae
      have htnil : t = [] := (firstMaxBy_eq_none f t).mp ht
      subst htnil
      exact ⟨[], [], rfl, by simp, by simp⟩
    | some c =>
      rw [ht] at h
      have h2 : (if f c ≤ f a then some a else some c) = some b := h
      obtain ⟨pre, suf, heq, hpre, hall⟩ := ih c ht
      by_cases hle : f c ≤ f a
      · rw [if_pos hle] at h2
        have hae : a = b := by simpa using h2
        subst hae
        refine ⟨[], t, rfl, by simp, ?_⟩
        intro x hx
        rcases List.mem_cons.mp hx with hx | hx
        · exact le_of_eq (congrArg f hx)
        · exact le_trans (hall x hx) hle
      · rw [if_neg hle] at h2
        have hce : c = b := by simpa using h2
        subst hce
        refine ⟨a :: pre, suf, by rw [heq, List.cons_append], ?_, ?_⟩
        · intro x hx
          rcases List.mem_cons.mp hx with hx | hx
          · rw [hx]; exact not_le.mp hle
          · exact hpre x hx
        · intro x hx
          rcases List.mem_cons.mp hx with hx | hx
          · rw [hx]; exact le_of_lt (not_le.mp hle)
          · exact hall x hx

/-- A nonempty list has a firstMinBy selection. -/
theorem firstMinBy_isSome {α β : Type} [LinearOrder β] (f : α → β) (l : List α)
    (h : l ≠ []) : ∃ b, firstMinBy f l = some b := by
  cases hb : firstMinBy f l with
  | none => exact absurd ((firstMinBy_eq_none f l).mp hb) h
  | some b => exact ⟨b, rfl⟩

/-- A nonempty list has a firstMaxBy selection. -/
theorem firstMaxBy_isSome {α β : Type} [LinearOrder β] (f : α → β) (l : List α)
    (h : l ≠ []) : ∃ b, firstMaxBy f l = some b := by
  cases hb : firstMaxBy f l with
  | none => exact absurd ((firstMaxBy_eq_none f l).mp hb) h
  | some b => exact ⟨b, rfl⟩

/-- The minimum value belongs to the list and bounds it from below. -/
theorem listMin?_spec {β : Type} [LinearOrder β] {l : List β} {m : β}
    (h : listMin? l = some m) : m ∈ l ∧ ∀ x ∈ l, m ≤ x := by
  obtain ⟨pre, suf, heq, -, hall⟩ := firstMinBy_spec id l m h
  refine ⟨?_, hall⟩
  rw [heq]
  exact List.mem_append_right _ (List.mem_cons_self _ _)

/-- The maximum value belongs to the list and bounds it from above. -/
theorem listMax?_spec {β : Type} [LinearOrder β] {l : List β} {m : β}
    (h : listMax? l = some m) : m ∈ l ∧ ∀ x ∈ l, x ≤ m := by
  obtain ⟨pre, suf, heq, -, hall⟩ := firstMaxBy_spec id l m h
  refine ⟨?_, hall⟩
  rw [heq]
  exact List.mem_append_right _ (List.mem_cons_self _ _)

/-- A nonempty list has a minimum value. -/
theorem listMin?_isSome {β : Type} [LinearOrder β] (l : List β) (h : l ≠ []) :
    ∃ m, listMin? l = some m :=
  firstMinBy_isSome id l h

/-- A nonempty list has a maximum value. -/
theorem listMax?_isSome {β : Type} [LinearOrder β] (l : List β) (h : l ≠ []) :
    ∃ m, listMax? l = some m :=
  firstMaxBy_isSome id l h

/-- The value of f at the firstMinBy selection is the minimum of the mapped
list. -/
theorem firstMinBy_listMin? {α β : Type} [LinearOrder β] (f : α → β) (l : List α) (b : α)
    (h : firstMinBy f l = some b) : listMin? (l.map f) = some (f b) := by
  obtain ⟨pre, suf, heq, -, hall⟩ := firstMinBy_spec f l b h
  have hb : b ∈ l := by
    rw [heq]; exact List.mem_append_right _ (List.mem_cons_self _ _)
  have hne : l.map f ≠ [] := by
    intro hnil
    rw [List.map_eq_nil_iff] at hnil
    subst hnil
    simp at hb
  obtain ⟨m, hm⟩ := listMin?_isSome (l.map f) hne
  obtain ⟨hmem, hle⟩ := listMin?_spec hm
  obtain ⟨a, ha, hfa⟩ := List.mem_map.mp hmem
  have h1 : f b ≤ m := hfa ▸ hall a ha
  have h2 : m ≤ f b := hle (f b) (List.mem_map_of_mem f hb)
  rw [hm, le_antisymm h2 h1]

/-! Helper lemmas about the extraction pipeline. -/

/-- A player with no active sample has an empty active group. -/
theorem activeRows_eq_nil {df : List Sample} {k : PlayerKey}
    (h : ∀ s ∈ groupRows df k, s.life < 0) : activeRows (groupRows df k) = [] := by
  rw [activeRows, List.filter_eq_nil_iff]
  intro s hs
  simpa using not_le.mpr (h s hs)

/-- A player with an active sample has a start time and a nonempty landing
window: the earliest active sample itself lies in the window. -/
theorem landingWindow_ne_nil {df : List Sample} {k : PlayerKey}
    (h : activeRows (groupRows df k) ≠ []) :
    ∃ st, start_time? df k = some st ∧
      landingWindow df k =
        (activeRows (groupRows df k)).filter (fun s => decide (s.time_step ≤ st + 45)) ∧
      landingWindow df k ≠ [] := by
  have hmapne : (activeRows (groupRows df k)).map (fun s => s.time_step) ≠ [] := by
    intro hnil
    rw [List.map_eq_nil_iff] at hnil
    exact h hnil
  obtain ⟨st, hst⟩ := listMin?_isSome _ hmapne
  have hst' : start_time? df k = some st := hst
  obtain ⟨hmem, -⟩ := listMin?_spec hst
  obtain ⟨r, hr, hrt⟩ := List.mem_map.mp hmem
  have hwin : landingWindow df k =
      (activeRows (groupRows df k)).filter (fun s => decide (s.time_step ≤ st + 45)) := by
    unfold landingWindow
    rw [hst']
  refine ⟨st, hst', hwin, ?_⟩
  rw [hwin]
  apply List.ne_nil_of_mem (a := r)
  apply List.mem_filter.mpr
  refine ⟨hr, ?_⟩
  simp only [decide_eq_true_eq]
  rw [hrt]
  omega

/-- A player whose group is nonempty occurs among the table keys. -/
theorem mem_keysOf {df : List Sample} {k : PlayerKey}
    (h : groupRows df k ≠ []) : k ∈ keysOf df := by
  obtain ⟨s, hs⟩ := List.exists_mem_of_ne_nil _ h
  obtain ⟨hsdf, hsk⟩ := List.mem_filter.mp hs
  rw [keysOf, List.mem_dedup]
  have : playerKey s = k := by simpa using hsk
  exact this ▸ List.mem_map_of_mem playerKey hsdf

/-- Characterisation of the successful branch of summarize_landing_data. -/
theorem summarize_ok_spec {rows : List AnalysisRow} {out : List LandingSummaryRow}
    (h : summarize_landing_data rows = .ok out) :
    ∃ mn mx, listMin? (avgsOf rows) = some mn ∧ listMax? (avgsOf rows) = some mx ∧
      0 < mx - mn ∧
      out = (keptGroups rows).map (fun g =>
        ⟨g.1, g.2.length, avg_survival g.2,
          ratTrunc ((avg_survival g.2 - mn) / (mx - mn) * 100)⟩) := by
  unfold summarize_landing_data at h
  cases hmn : listMin? (avgsOf rows) with
  | none => rw [hmn] at h; simp at h
  | some mn =>
    cases hmx : listMax? (avgsOf rows) with
    | none => rw [hmn, hmx] at h; simp at h
    | some mx =>
      rw [hmn, hmx] at h
      have h2 : (if 0 < mx - mn then
          Except.ok (ε := String) ((keptGroups rows).map (fun g =>
            (⟨g.1, g.2.length, avg_survival g.2,
              ratTrunc ((avg_survival g.2 - mn) / (mx - mn) * 100)⟩ : LandingSummaryRow)))
          else .error "AttributeError: int object has no attribute astype") = .ok out := h
      by_cases hpos : 0 < mx - mn
      · rw [if_pos hpos] at h2
        refine ⟨mn, mx, rfl, rfl, hpos, ?_⟩
        exact (Except.ok.inj h2).symm
      · rw [if_neg hpos] at h2
        simp at h2

/-- Every row of a successful landing summary carries the floor of the
min-max normalised score, and its average is bounded below by the minimum. -/
theorem score_mem_spec {rows : List AnalysisRow} {out : List LandingSummaryRow}
    (h : summarize_landing_data rows = .ok out) (r : LandingSummaryRow) (hr : r ∈ out) :
    ∃ mn mx, listMin? (avgsOf rows) = some mn ∧ listMax? (avgsOf rows) = some mx ∧
      0 < mx - mn ∧ mn ≤ r.avg_survival_time ∧
      r.survival_score = ⌊(r.avg_survival_time - mn) / (mx - mn) * 100⌋ := by
  obtain ⟨mn, mx, hmn, hmx, hpos, hout⟩ := summarize_ok_spec h
  subst hout
  obtain ⟨g, hg, hgr⟩ := List.mem_map.mp hr
  have havg : avg_survival g.2 ∈ avgsOf rows :=
    List.mem_map_of_mem (fun g => avg_survival g.2) hg
  have hmnle : mn ≤ avg_survival g.2 := (listMin?_spec hmn).2 _ havg
  have hq : 0 ≤ (avg_survival g.2 - mn) / (mx - mn) * 100 := by
    apply mul_nonneg _ (by norm_num)
    exact div_nonneg (sub_nonneg.mpr hmnle) (le_of_lt hpos)
  subst hgr
  refine ⟨mn, mx, hmn, hmx, hpos, hmnle, ?_⟩
  show ratTrunc _ = _
  rw [ratTrunc, if_pos hq]

/-! Claim theorems. -/

/-- C1: the claim says that when every kept region shares the same
avg_survival_time the code assigns survival_score 100 to each of them
without failing. On rowsEq, whose single kept region makes all averages
equal, summarize_landing_data instead raises AttributeError: the
conditional expression at lines 162-165 evaluates to the plain Python int
100 and the .astype(int) call on it has no receiver method. -/
theorem C1_equal_avgs_crash :
    summarize_landing_data rowsEq =
      .error "AttributeError: int object has no attribute astype" := by
  with_unfolding_all rfl

/-- C2: the claim says every boundary row with fewer than 3 parsed vertices
is dropped silently. The code only drops rows with zero vertices (first
conjunct: the classification continues over the remaining regions); a row
with one or two parsed vertices reaches the shapely Polygon constructor,
which raises ValueError and aborts the run (second and third conjuncts). -/
theorem C2_degenerate_boundary_crash :
    parse_poi_polygons [emptyRow, goodRow] = .ok [poiA] ∧
    parse_poi_polygons [goodRow, oneVertexRow] =
      .error "ValueError: A LinearRing must have at least 3 coordinate tuples" ∧
    parse_poi_polygons [twoVertexRow, goodRow] =
      .error "ValueError: A LinearRing must have at least 3 coordinate tuples" := by
  refine ⟨?_, ?_, ?_⟩ <;> with_unfolding_all rfl

/-- C3 counterexample: the player (1, 1) of dfDead has no sample with
life >= 0, yet the death summary contains its death event, classified to
Alpha, because death_df groups the full unfiltered table; only the landing
side excludes the player. -/
theorem C3_counterexample :
    (∀ s ∈ groupRows dfDead (1, 1), s.life < 0) ∧
    analysisRows dfDead [poiA] = [] ∧
    deathRows dfDead [poiA] = [⟨(1, 1), 1, 1, "Alpha"⟩] ∧
    summarize_death_data (deathRows dfDead [poiA]) = [⟨"Alpha", 1⟩] := by
  refine ⟨?_, ?_, ?_, ?_⟩
  · with_unfolding_all decide
  · with_unfolding_all rfl
  · with_unfolding_all rfl
  · with_unfolding_all rfl

/-- C3 as amended: a player key all of whose samples have life < 0
contributes no row to the analysis (landing) table, but whenever it has any
sample at all it does contribute a row to the death table, since the death
selection at line 136 groups the full unfiltered breadcrumbs. -/
theorem C3_amended (df : List Sample) (pois : List POI) (k : PlayerKey)
    (h : ∀ s ∈ groupRows df k, s.life < 0) :
    (∀ row ∈ analysisRows df pois, row.key ≠ k) ∧
    (groupRows df k ≠ [] → ∃ drow ∈ deathRows df pois, drow.key = k) := by
  have hact : activeRows (groupRows df k) = [] := activeRows_eq_nil h
  constructor
  · intro row hrow hkey
    obtain ⟨k', hk', hsome⟩ := List.mem_filterMap.mp hrow
    cases hl : landingRow df k' with
    | none => rw [hl] at hsome; simp at hsome
    | some l =>
      cases hstv : survival_time? df k' with
      | none => rw [hl, hstv] at hsome; simp at hsome
      | some st =>
        rw [hl, hstv] at hsome
        have hrowval : row =
            ⟨k', l.pos_x, l.pos_y, st, classify_point l.pos_x l.pos_y pois⟩ :=
          (Option.some.inj hsome).symm
        have hkk : k' = k := by rw [hrowval] at hkey; exact hkey
        subst hkk
        have : survival_time? df k' = none := by
          rw [survival_time?, hact]
          rfl
        rw [this] at hstv
        cases hstv
  · intro hne
    obtain ⟨d, hd⟩ := firstMaxBy_isSome (fun s => s.life) _ hne
    refine ⟨⟨k, d.pos_x, d.pos_y, classify_point d.pos_x d.pos_y pois⟩, ?_, rfl⟩
    apply List.mem_filterMap.mpr
    refine ⟨k, mem_keysOf hne, ?_⟩
    rw [show deathRow df k = some d from hd]
    rfl

/-- C3 witness: the amended statement applied to dfDead, whose only player
has a single sample with life -1. -/
theorem C3_witness :
    (∀ s ∈ groupRows dfDead (1, 1), s.life < 0) ∧
    ((∀ row ∈ analysisRows dfDead [poiA], row.key ≠ (1, 1)) ∧
      (groupRows dfDead (1, 1) ≠ [] →
        ∃ drow ∈ deathRows dfDead [poiA], drow.key = (1, 1))) :=
  ⟨by with_unfolding_all decide,
    C3_amended dfDead [poiA] (1, 1) (by with_unfolding_all decide)⟩

/-- C4 counterexample: on rowsTri the region B1 has normalised value
100 * (2 - 0) / (3 - 0), whose rounding to the nearest integer is 67, yet
the code assigns survival_score 66, because astype(int) truncates. -/
theorem C4_counterexample :
    summarize_landing_data rowsTri = .ok outTri ∧
    round ((100 : ℚ) * ((2 : ℚ) - 0) / ((3 : ℚ) - 0)) = 67 ∧
    (⟨"B1", 1, 2, 66⟩ : LandingSummaryRow) ∈ outTri ∧ (66 : Int) ≠ 67 := by
  refine ⟨?_, ?_, ?_, ?_⟩
  · with_unfolding_all rfl
  · with_unfolding_all rfl
  · with_unfolding_all decide
  · decide

/-- C4 as amended: when max_avg > min_avg, each kept region receives the
min-max normalised value multiplied by 100 and truncated toward zero (the
floor, since the value is nonnegative), not rounded to nearest. -/
theorem C4_amended {rows : List AnalysisRow} {out : List LandingSummaryRow}
    (h : summarize_landing_data rows = .ok out) (r : LandingSummaryRow) (hr : r ∈ out) :
    ∃ mn mx, listMin? (avgsOf rows) = some mn ∧ listMax? (avgsOf rows) = some mx ∧
      mn < mx ∧
      r.survival_score = ⌊(r.avg_survival_time - mn) / (mx - mn) * 100⌋ := by
  obtain ⟨mn, mx, hmn, hmx, hpos, -, hscore⟩ := score_mem_spec h r hr
  exact ⟨mn, mx, hmn, hmx, sub_pos.mp hpos, hscore⟩

/-- C4 witness: the amended statement applied to rowsTri at the B1 row. -/
theorem C4_witness :
    summarize_landing_data rowsTri = .ok outTri ∧
    (⟨"B1", 1, 2, 66⟩ : LandingSummaryRow) ∈ outTri ∧
    (∃ mn mx, listMin? (avgsOf rowsTri) = some mn ∧ listMax? (avgsOf rowsTri) = some mx ∧
      mn < mx ∧
      (66 : Int) = ⌊((2 : ℚ) - mn) / (mx - mn) * 100⌋) :=
  ⟨by with_unfolding_all rfl, by with_unfolding_all decide,
    @C4_amended rowsTri outTri (by with_unfolding_all rfl) ⟨"B1", 1, 2, 66⟩
      (by with_unfolding_all decide)⟩

/-- C5: classify_point returns the name of the first region in Region Set
order whose polygon contains the point: for any decomposition of the region
list into a prefix of regions not containing the point followed by a
containing region A, the result is A, regardless of later regions. -/
theorem C5_first_matching_region (pre post : List POI) (A : POI) (x y : ℚ)
    (hpre : ∀ P ∈ pre, polyContains P.polygon x y = false)
    (hA : polyContains A.polygon x y = true) :
    classify_point x y (pre ++ A :: post) = A.name := by
  induction pre with
  | nil =>
    have hA2 : (fun poi => polyContains poi.polygon x y) A = true := hA
    unfold classify_point
    rw [List.nil_append, List.find?_cons_of_pos post hA2]
  | cons P pre ih =>
    have hP : polyContains P.polygon x y = false := hpre P (List.mem_cons_self P pre)
    have hP2 : ¬((fun poi => polyContains poi.polygon x y) P = true) := by simp [hP]
    have ihh := ih (fun Q hQ => hpre Q (List.mem_cons_of_mem P hQ))
    unfold classify_point at ihh ⊢
    rw [List.cons_append, List.find?_cons_of_neg (pre ++ A :: post) hP2]
    exact ihh

/-- C5 witness: the point (3/2, 3/2) lies inside both overlapping squares
Alpha (defined first) and Bravo, and classifies as Alpha. -/
theorem C5_witness :
    polyContains poiA.polygon (3/2) (3/2) = true ∧
    polyContains poiB.polygon (3/2) (3/2) = true ∧
    classify_point (3/2) (3/2) [poiA, poiB] = "Alpha" :=
  ⟨by with_unfolding_all rfl, by with_unfolding_all rfl,
    C5_first_matching_region [] [poiB] poiA (3/2) (3/2) (by simp)
      (by with_unfolding_all rfl)⟩

/-- C6: a point contained in no region classifies as Other, and no row of
either summary table ever carries the Other bucket. -/
theorem C6_unclassified_excluded (x y : ℚ) (pois : List POI)
    (rows : List AnalysisRow) (drows : List DeathRow)
    (h : ∀ P ∈ pois, polyContains P.polygon x y = false) :
    classify_point x y pois = "Other" ∧
    (∀ out, summarize_landing_data rows = .ok out → ∀ r ∈ out, r.name ≠ "Other") ∧
    (∀ r ∈ summarize_death_data drows, r.name ≠ "Other") := by
  refine ⟨?_, ?_, ?_⟩
  · unfold classify_point
    rw [List.find?_eq_none.mpr]
    intro P hP
    simp [h P hP]
  · intro out hok r hr
    obtain ⟨mn, mx, -, -, -, hout⟩ := summarize_ok_spec hok
    subst hout
    obtain ⟨g, hg, hgr⟩ := List.mem_map.mp hr
    have hkept := (List.mem_filter.mp hg).2
    rw [← hgr]
    simpa using hkept
  · intro r hr
    unfold summarize_death_data at hr
    obtain ⟨n, hn, hnr⟩ := List.mem_map.mp hr
    have hkept := (List.mem_filter.mp hn).2
    rw [← hnr]
    simpa using hkept

/-- C6 witness: the point (100, 100) lies outside both squares and
classifies as Other; neither summary on the fixture tables carries Other. -/
theorem C6_witness :
    (∀ P ∈ [poiA, poiB], polyContains P.polygon (100 : ℚ) (100 : ℚ) = false) ∧
    (classify_point (100 : ℚ) (100 : ℚ) [poiA, poiB] = "Other" ∧
      (∀ out, summarize_landing_data rowsTri = .ok out → ∀ r ∈ out, r.name ≠ "Other") ∧
      (∀ r ∈ summarize_death_data drowsOther, r.name ≠ "Other")) :=
  ⟨by with_unfolding_all decide,
    C6_unclassified_excluded (100 : ℚ) (100 : ℚ) [poiA, poiB] rowsTri drowsOther
      (by with_unfolding_all decide)⟩

/-- C7: for a player with at least one active sample, the landing selection
succeeds and the pos_z of the selected sample is the minimum pos_z over the
active samples whose time_step is at most start_time + 45, where start_time
is the minimum time_step among the active samples. -/
theorem C7_landing_is_window_min (df : List Sample) (k : PlayerKey)
    (h : activeRows (groupRows df k) ≠ []) :
    ∃ st s, start_time? df k = some st ∧ landingRow df k = some s ∧
      listMin? (((activeRows (groupRows df k)).filter
          (fun r => decide (r.time_step ≤ st + 45))).map (fun r => r.pos_z)) =
        some s.pos_z := by
  obtain ⟨st, hst, hwin, hwne⟩ := landingWindow_ne_nil h
  obtain ⟨s, hs⟩ :=
    firstMinBy_isSome (fun r : Sample => r.pos_z) (landingWindow df k) hwne
  refine ⟨st, s, hst, hs, ?_⟩
  have hmin :=
    firstMinBy_listMin? (fun r : Sample => r.pos_z) (landingWindow df k) s hs
  rw [hwin] at hmin
  exact hmin

/-- C7 witness: on dfA the start time is 10, the selected landing sample is
the touchdown row at time 20, and its altitude 2 is the window minimum. -/
theorem C7_witness :
    activeRows (groupRows dfA (1, 1)) ≠ [] ∧
    (∃ st s, start_time? dfA (1, 1) = some st ∧ landingRow dfA (1, 1) = some s ∧
      listMin? (((activeRows (groupRows dfA (1, 1))).filter
          (fun r => decide (r.time_step ≤ st + 45))).map (fun r => r.pos_z)) =
        some s.pos_z) :=
  ⟨by with_unfolding_all decide, C7_landing_is_window_min dfA (1, 1) (by with_unfolding_all decide)⟩

/-- C8: for a player with at least one active sample, the analysis table
contains a row for that player whose survival_time is the maximum time_step
over all of the active samples of that player, the landing window playing
no role. -/
theorem C8_survival_is_active_max (df : List Sample) (pois : List POI) (k : PlayerKey)
    (h : activeRows (groupRows df k) ≠ []) :
    ∃ row, row ∈ analysisRows df pois ∧ row.key = k ∧
      listMax? ((activeRows (groupRows df k)).map (fun s => s.time_step)) =
        some row.survival_time := by
  have hmapne : (activeRows (groupRows df k)).map (fun s => s.time_step) ≠ [] := by
    intro hnil
    rw [List.map_eq_nil_iff] at hnil
    exact h hnil
  obtain ⟨st, hst⟩ := listMax?_isSome _ hmapne
  obtain ⟨-, -, -, hwne⟩ := landingWindow_ne_nil h
  obtain ⟨l, hl⟩ :=
    firstMinBy_isSome (fun r : Sample => r.pos_z) (landingWindow df k) hwne
  have hgrne : groupRows df k ≠ [] := by
    intro hg
    apply h
    rw [activeRows, hg]
    rfl
  refine ⟨⟨k, l.pos_x, l.pos_y, st, classify_point l.pos_x l.pos_y pois⟩, ?_, rfl, hst⟩
  apply List.mem_filterMap.mpr
  refine ⟨k, mem_keysOf hgrne, ?_⟩
  have hl2 : landingRow df k = some l := hl
  have hst2 : survival_time? df k = some st := hst
  rw [hl2, hst2]

/-- C8 witness: on dfA the survival time 500 is the maximum active
time_step, recorded in the analysis row of player (1, 1). -/
theorem C8_witness :
    activeRows (groupRows dfA (1, 1)) ≠ [] ∧
    (∃ row, row ∈ analysisRows dfA [poiA] ∧ row.key = (1, 1) ∧
      listMax? ((activeRows (groupRows dfA (1, 1))).map (fun s => s.time_step)) =
        some row.survival_time) :=
  ⟨by with_unfolding_all decide,
    C8_survival_is_active_max dfA [poiA] (1, 1) (by with_unfolding_all decide)⟩

/-- C9: within one successful landing summary, a strictly larger average
survival time never yields a strictly smaller survival score. -/
theorem C9_score_monotone {rows : List AnalysisRow} {out : List LandingSummaryRow}
    (h : summarize_landing_data rows = .ok out)
    (r1 r2 : LandingSummaryRow) (h1 : r1 ∈ out) (h2 : r2 ∈ out)
    (hgt : r2.avg_survival_time < r1.avg_survival_time) :
    r2.survival_score ≤ r1.survival_score := by
  obtain ⟨mn, mx, hmn, hmx, hpos, -, hs1⟩ := score_mem_spec h r1 h1
  obtain ⟨mn', mx', hmn', hmx', -, -, hs2⟩ := score_mem_spec h r2 h2
  rw [hmn] at hmn'
  rw [hmx] at hmx'
  have emn : mn' = mn := (Option.some.inj hmn').symm
  have emx : mx' = mx := (Option.some.inj hmx').symm
  rw [emn, emx] at hs2
  rw [hs1, hs2]
  apply Int.floor_le_floor
  apply mul_le_mul_of_nonneg_right _ (by norm_num : (0 : ℚ) ≤ 100)
  exact (div_le_div_iff_of_pos_right hpos).mpr (sub_le_sub_right (le_of_lt hgt) mn)

/-- C9 witness: on rowsTri the region C1 with average 3 scores 100 and the
region B1 with average 2 scores 66. -/
theorem C9_witness :
    summarize_landing_data rowsTri = .ok outTri ∧
    (⟨"C1", 1, 3, 100⟩ : LandingSummaryRow) ∈ outTri ∧
    (⟨"B1", 1, 2, 66⟩ : LandingSummaryRow) ∈ outTri ∧
    (2 : ℚ) < 3 ∧ (66 : Int) ≤ 100 :=
  ⟨by with_unfolding_all rfl, by with_unfolding_all decide, by with_unfolding_all decide,
    by norm_num,
    @C9_score_monotone rowsTri outTri (by with_unfolding_all rfl)
      ⟨"C1", 1, 3, 100⟩ ⟨"B1", 1, 2, 66⟩
      (by with_unfolding_all decide) (by with_unfolding_all decide) (by norm_num)⟩

/-- C10: the selections underlying idxmin and idxmax are deterministic
first-occurrence selections: the landing sample is a window row attaining
the minimal pos_z with every earlier window row strictly higher, and the
death sample is a group row attaining the maximal life with every earlier
group row strictly lower. -/
theorem C10_first_occurrence_ties (df : List Sample) (k : PlayerKey) (s d : Sample)
    (hl : landingRow df k = some s) (hd : deathRow df k = some d) :
    (∃ pre suf, landingWindow df k = pre ++ s :: suf ∧
      (∀ t ∈ pre, s.pos_z < t.pos_z) ∧ ∀ t ∈ landingWindow df k, s.pos_z ≤ t.pos_z) ∧
    (∃ pre suf, groupRows df k = pre ++ d :: suf ∧
      (∀ t ∈ pre, t.life < d.life) ∧ ∀ t ∈ groupRows df k, t.life ≤ d.life) :=
  ⟨firstMinBy_spec (fun r : Sample => r.pos_z) (landingWindow df k) s
      (show firstMinBy (fun r : Sample => r.pos_z) (landingWindow df k) = some s from hl),
    firstMaxBy_spec (fun r : Sample => r.life) (groupRows df k) d
      (show firstMaxBy (fun r : Sample => r.life) (groupRows df k) = some d from hd)⟩

/-- C10 witness: on dfTie both samples tie on pos_z and on life, and both
selections pick the first row of the input order. -/
theorem C10_witness :
    landingRow dfTie (1, 1) = some tieFirst ∧
    deathRow dfTie (1, 1) = some tieFirst ∧
    ((∃ pre suf, landingWindow dfTie (1, 1) = pre ++ tieFirst :: suf ∧
      (∀ t ∈ pre, tieFirst.pos_z < t.pos_z) ∧
      ∀ t ∈ landingWindow dfTie (1, 1), tieFirst.pos_z ≤ t.pos_z) ∧
    (∃ pre suf, groupRows dfTie (1, 1) = pre ++ tieFirst :: suf ∧
      (∀ t ∈ pre, t.life < tieFirst.life) ∧
      ∀ t ∈ groupRows dfTie (1, 1), t.life ≤ tieFirst.life)) :=
  ⟨by with_unfolding_all rfl, by with_unfolding_all rfl,
    C10_first_occurrence_ties dfTie (1, 1) tieFirst tieFirst
      (by with_unfolding_all rfl) (by with_unfolding_all rfl)⟩

end Caldera
